import Mathlib

/-!
Verification of the DiHydrogen (H2) dispatch, tensor-copy and indexing core.

Shallow embedding of:
* `dispatch.hpp` (dispatch key codec, dispatch registry interface, `DispatchOn`,
  `do_dispatch`),
* `copy.hpp` (`copy` for `Tensor` and `DistTensor`, `copy_same_type`,
  `make_accessible_on_device`),
* `copy_buffer.hpp` (`copy_buffer`),
* `tensor/tensor_utils.hpp` (`next_scalar_index`).

Machine integers are modelled as `Nat` with explicit `% 2 ^ w` where the C++
computes in a fixed-width unsigned type.  Code that throws is modelled with
`Except H2Error`.  Repository code that is referenced but whose definition is
not among the sources (e.g. `h2/core/types.hpp`, `h2/utils/IntegerMath.hpp`,
the tensor classes and the dispatch-registry translation unit) is modelled
from the spec; each such definition says so in its doc comment.
-/

namespace h2

/-! ### Integer math helpers (`h2/utils/IntegerMath.hpp`, not among the sources) -/

/-- Modelled from the spec: `ceillog2(v)` is `ceil(log2(v))`, the number of bits
needed to distinguish `v` values (`IntegerMath.hpp` is not among the sources;
the spec fixes the semantics via `bits_per_native_type = ceil(log2(num_native_types))`). -/
def ceillog2 (n : Nat) : Nat := Nat.clog 2 n

/-- Modelled from the spec: `byteceil(bits)` is the number of bytes needed to
hold `bits` bits (`IntegerMath.hpp` is not among the sources). -/
def byteceil (n : Nat) : Nat := (n + 7) / 8

/-! ### Dispatch key codec (`dispatch.hpp`) -/

/-- The number of native H2 compute types.  `NumComputeTypes` lives in
`h2/core/types.hpp`, which is not among the sources.  Modelled from the spec:
the native compute types are the compile-time enumerable element types, which
the `H2_INSTANTIATE_DEV_*` macros in `dispatch.hpp` enumerate as
`float, double, std::int32_t, std::uint32_t`. -/
def NumComputeTypes : Nat := 4

/-- `dispatch_bits_per_native_compute_type = ceillog2(NumComputeTypes)`. -/
def dispatch_bits_per_native_compute_type : Nat := ceillog2 NumComputeTypes

/-- `max_native_dispatch_types = (sizeof(MaxNativeDispatchKeyT) * 8) / dispatch_bits_per_native_compute_type`
with `MaxNativeDispatchKeyT` an 8-byte unsigned type. -/
def max_native_dispatch_types : Nat := (8 * 8) / dispatch_bits_per_native_compute_type

/-- `dispatch_key_top_byte_shift = (sizeof(DispatchKeyT) - 1) * 8` with
`DispatchKeyT` an 8-byte unsigned type. -/
def dispatch_key_top_byte_shift : Nat := (8 - 1) * 8

/-- `max_dispatch_types = ((sizeof(DispatchKeyT) - 1) * 8) / dispatch_bits_per_compute_type`.
The per-token bit width `dispatch_bits_per_compute_type = ceillog2(TypeInfo::max_token - 1)`
depends on `TypeInfo` (`h2/core/types.hpp`, not among the sources), so it is kept
as the parameter `bits` here and in `get_dispatch_key`. -/
def max_dispatch_types_for (bits : Nat) : Nat := ((8 - 1) * 8) / bits

/-- The token-packing loop shared by `get_native_dispatch_key` and
`get_dispatch_key`:
`for (i = 0; i < N; ++i) dispatch_key |= tokens[i] << (bits * (N - 1 - i));`
starting from the accumulator `init`. -/
def pack_dispatch_tokens (bits : Nat) (tokens : List Nat) (init : Nat) : Nat :=
  (List.range tokens.length).foldl
    (fun key i => key ||| ((tokens.getD i 0) <<< (bits * (tokens.length - 1 - i)))) init

/-- `internal::get_native_dispatch_key(tokens)`: packs the tokens
most-significant-first with `dispatch_bits_per_native_compute_type` bits per
token, no arity field, in `NativeDispatchKeyT<N>`, an unsigned type of
`byteceil(bits * N)` bytes (we take the declared width; the concrete
`UTypeForBytes` type may be wider, which changes nothing below). -/
def get_native_dispatch_key (tokens : List Nat) : Nat :=
  (pack_dispatch_tokens dispatch_bits_per_native_compute_type tokens 0)
    % 2 ^ (8 * byteceil (dispatch_bits_per_native_compute_type * tokens.length))

/-- `internal::get_dispatch_key(tokens)`: stores `N` in the top byte of the
8-byte `DispatchKeyT` and packs the tokens most-significant-first with `bits`
(`dispatch_bits_per_compute_type`) bits per token:
`DispatchKeyT dispatch_key = N << dispatch_key_top_byte_shift;` followed by the
packing loop. -/
def get_dispatch_key (bits : Nat) (tokens : List Nat) : Nat :=
  (pack_dispatch_tokens bits tokens (tokens.length <<< dispatch_key_top_byte_shift)) % 2 ^ 64

/-- Decoder for general dispatch keys (spec side of the round-trip): reads the
arity from the top byte and each token from its bit field. -/
def decode_general_dispatch_key (bits : Nat) (key : Nat) : Nat × List Nat :=
  (key >>> dispatch_key_top_byte_shift,
    (List.range (key >>> dispatch_key_top_byte_shift)).map
      fun i => (key >>> (bits * (key >>> dispatch_key_top_byte_shift - 1 - i))) % 2 ^ bits)

/-- Decoder for native dispatch keys (spec side): the arity `n` is not stored in
the key and must be supplied by the caller. -/
def decode_native_dispatch_key (bits n key : Nat) : List Nat :=
  (List.range n).map fun i => (key >>> (bits * (n - 1 - i))) % 2 ^ bits

/-! ### Errors (`h2/utils/Error.hpp`, not among the sources) -/

/-- Modelled from the spec: the two exception kinds of the error taxonomy.
`exception` stands for `H2Exception` (recognized-but-unimplemented /
"not supported" errors), `fatal` for `H2FatalException`
(fatal/unsupported-configuration errors; failed `H2_ASSERT_*` checks also
raise it). -/
inductive H2Error
  | exception (msg : String)
  | fatal (msg : String)
deriving DecidableEq

instance exceptDecidableEq {ε α : Type} [DecidableEq ε] [DecidableEq α] :
    DecidableEq (Except ε α) := fun x y =>
  match x, y with
  | .ok a, .ok b =>
    if h : a = b then isTrue (by rw [h])
    else isFalse (by intro hc; cases hc; exact h rfl)
  | .error a, .error b =>
    if h : a = b then isTrue (by rw [h])
    else isFalse (by intro hc; cases hc; exact h rfl)
  | .ok _, .error _ => isFalse (by intro hc; cases hc)
  | .error _, .ok _ => isFalse (by intro hc; cases hc)

/-! ### Dynamic dispatch registry (`dispatch.hpp`; the registry's translation
unit is not among the sources) -/

/-- `internal::DispatchFunctionEntry`: a type-erased function pointer plus a
trampoline caller that reconstructs the true argument types.  The erased
pointer and its trampoline are modelled together as the typed function they
reconstruct (`DispatchFunctionWrapper<Ret, Args...>::call` applied to the
stored pointer). -/
structure DispatchFunctionEntry (α β : Type) where
  func_ptr : α → β

/-- `internal::dispatch_call`: call the function in the dispatch entry with the
given arguments (the trampoline reconstructs the argument types and applies
the stored function pointer). -/
def dispatch_call {α β : Type} (e : DispatchFunctionEntry α β) (x : α) : β :=
  e.func_ptr x

/-- Modelled from the spec: the process-wide dispatch registry, a map from
(operation name, dispatch key) to a `DispatchFunctionEntry` (the registry's
translation unit is not among the sources; the spec fixes it as a single
shared map keyed by name and general key). -/
def DispatchRegistry (α β : Type) : Type :=
  List ((String × Nat) × DispatchFunctionEntry α β)

/-- Modelled from the spec: `internal::add_dispatch_entry` inserts or
overwrites the entry for (name, key): last writer wins. -/
def add_dispatch_entry {α β : Type} (name : String) (dispatch_key : Nat)
    (dispatch_entry : DispatchFunctionEntry α β) (reg : DispatchRegistry α β) :
    DispatchRegistry α β :=
  ((name, dispatch_key), dispatch_entry)
    :: reg.filter (fun p => decide (p.1 ≠ (name, dispatch_key)))

/-- Modelled from the spec: `internal::get_dispatch_entry` returns the entry
for (name, key) or throws if it is not present. -/
def get_dispatch_entry {α β : Type} (name : String) (dispatch_key : Nat)
    (reg : DispatchRegistry α β) : Except H2Error (DispatchFunctionEntry α β) :=
  match reg.find? (fun p => decide (p.1 = (name, dispatch_key))) with
  | some p => .ok p.2
  | none => .error (.exception "Dispatch entry not found")

/-- `dispatch_register(name, dispatch_key, func)`: builds the
`DispatchFunctionEntry` for `func` and adds it to the registry. -/
def dispatch_register {α β : Type} (name : String) (dispatch_key : Nat)
    (func : α → β) (reg : DispatchRegistry α β) : DispatchRegistry α β :=
  add_dispatch_entry name dispatch_key ⟨func⟩ reg

/-- Modelled from the spec: `dispatch_unregister(name, dispatch_key)` removes
the entry; removing a nonexistent entry is a no-op. -/
def dispatch_unregister {α β : Type} (name : String) (dispatch_key : Nat)
    (reg : DispatchRegistry α β) : DispatchRegistry α β :=
  reg.filter (fun p => decide (p.1 ≠ (name, dispatch_key)))

/-! ### Runtime type info and `DispatchOn` (`dispatch.hpp`) -/

/-- Modelled from the spec: a runtime `TypeInfo`: a compact token plus the two
predicates `is_compute_type` and `is_h2_compute_type` (native) used by
dispatch (`h2/core/types.hpp` is not among the sources). -/
structure TypeInfo where
  token : Nat
  is_compute : Bool
  is_native : Bool
deriving DecidableEq

/-- `is_compute_type` on the runtime type of an argument. -/
def is_compute_type (t : TypeInfo) : Bool := t.is_compute

/-- `is_h2_compute_type`: true for native H2 compute types. -/
def is_h2_compute_type (t : TypeInfo) : Bool := t.is_native

/-- `internal::all_compute_types(args...)`. -/
def all_compute_types (args : List TypeInfo) : Bool :=
  args.all is_compute_type

/-- `internal::all_h2_compute_types(args...)`. -/
def all_h2_compute_types (args : List TypeInfo) : Bool :=
  args.all is_h2_compute_type

/-- `DispatchOn<num_types>`: the token tuple and the all-native flag. -/
structure DispatchOn where
  tokens : List Nat
  all_native : Bool
deriving DecidableEq

/-- The `DispatchOn` constructor: computes the tokens and the all-native flag,
then throws `H2FatalException` if any argument's runtime type is not a compute
type.  The throwing constructor is modelled as an `Except`: a `DispatchOn`
value exists only if construction did not throw. -/
def DispatchOn.construct (args : List TypeInfo) : Except H2Error DispatchOn :=
  if all_compute_types args then
    .ok ⟨args.map TypeInfo.token, all_h2_compute_types args⟩
  else
    .error (.fatal "Attempt to dispatch on a non-compute type")

/-- `do_dispatch(dispatch_table, name, dispatch_types, args...)`: the native
fast path indexes the dense table with the native key (with a debug bounds
assertion); otherwise the general key is built and looked up in the registry.
Keys are constructed only here, from an already-constructed `DispatchOn`. -/
def do_dispatch {α β : Type} (bits : Nat) (dispatch_table : List (DispatchFunctionEntry α β))
    (name : String) (reg : DispatchRegistry α β) (dispatch_types : DispatchOn)
    (x : α) : Except H2Error β :=
  if dispatch_types.all_native then
    if h : get_native_dispatch_key dispatch_types.tokens < dispatch_table.length then
      .ok (dispatch_call (dispatch_table.get ⟨get_native_dispatch_key dispatch_types.tokens, h⟩) x)
    else
      .error (.fatal "Native dispatch key exceeds dispatch table size")
  else
    match get_dispatch_entry name (get_dispatch_key bits dispatch_types.tokens) reg with
    | .ok e => .ok (dispatch_call e x)
    | .error e => .error e

/-- The dispatch pipeline: construct the `DispatchOn` descriptor from the
arguments' runtime types, then dispatch.  The descriptor construction happens
first; no dispatch key is built unless it succeeds. -/
def dispatch_pipeline {α β : Type} (bits : Nat)
    (dispatch_table : List (DispatchFunctionEntry α β)) (name : String)
    (reg : DispatchRegistry α β) (args : List TypeInfo) (x : α) :
    Except H2Error β :=
  (DispatchOn.construct args).bind
    (fun d => do_dispatch bits dispatch_table name reg d x)

/-! ### Devices and compute streams (`h2/core/device.hpp` and
`h2/core/sync.hpp` are not among the sources) -/

/-- Modelled from the spec: the compute device type (CPU or accelerator). -/
inductive Device
  | CPU
  | GPU
deriving DecidableEq

/-- Modelled from the spec: a `ComputeStream` identifies a device and an
ordered execution context (queue) on it; equality is underlying-context
identity, modelled by the `id` field. -/
structure ComputeStream where
  device : Device
  id : Nat
deriving DecidableEq

/-- Modelled from the spec: `create_multi_sync(main, others...)` merges the
streams into one synchronization unit that behaves as the designated main
stream for subsequent operations. -/
def create_multi_sync (main _other : ComputeStream) : ComputeStream := main

/-! ### Raw buffer copy (`copy_buffer.hpp`) -/

/-- A buffer-copy primitive invocation recorded by `copy_buffer`: `memcpy` is
the synchronous CPU `std::memcpy`; `gpu_copy` is `gpu::mem_copy` enqueued on
the recorded stream.  Buffer pointers are opaque (`none` = `nullptr`), and
the element count is recorded exactly. -/
inductive CopyAct
  | memcpy (dst src : Option Nat) (count : Nat)
  | gpu_copy (stream : ComputeStream) (dst src : Option Nat) (count : Nat)
deriving DecidableEq

/-- The number of elements a recorded copy action transfers. -/
def CopyAct.count : CopyAct → Nat
  | .memcpy _ _ n => n
  | .gpu_copy _ _ _ n => n

/-- `copy_buffer<T>(dst, dst_stream, src, src_stream, count)`: a debug-only
null-buffer assertion, then a device-pair case split: CPU to CPU is a
synchronous `std::memcpy`; GPU to GPU merges the two streams' synchronization
(`create_multi_sync(dst_stream, src_stream)`) and issues the copy there; the
mixed pairs enqueue on the GPU side's stream; anything else throws "Unknown
device combination".  `debug` models whether `H2_ASSERT_DEBUG` is compiled
in; `has_gpu` models `H2_HAS_GPU` (without it the GPU branches are not
compiled and fall through to the throw). -/
def copy_buffer (debug has_gpu : Bool) (dst : Option Nat)
    (dst_stream : ComputeStream) (src : Option Nat) (src_stream : ComputeStream)
    (count : Nat) : Except H2Error CopyAct :=
  if debug ∧ ¬(count = 0 ∨ (dst ≠ none ∧ src ≠ none)) then
    .error (.fatal "Null buffers")
  else
    match src_stream.device, dst_stream.device with
    | .CPU, .CPU => .ok (.memcpy dst src count)
    | .GPU, .GPU =>
      if has_gpu then
        .ok (.gpu_copy (create_multi_sync dst_stream src_stream) dst src count)
      else .error (.exception "Unknown device combination")
    | .CPU, .GPU =>
      if has_gpu then .ok (.gpu_copy dst_stream dst src count)
      else .error (.exception "Unknown device combination")
    | .GPU, .CPU =>
      if has_gpu then .ok (.gpu_copy src_stream dst src count)
      else .error (.exception "Unknown device combination")

/-! ### Local tensors (`h2/tensor/tensor.hpp` is not among the sources; the
tensor state and its primitive operations are modelled from the spec) -/

/-- Modelled from the spec: a local `Tensor<T>`: element type (the template
parameter, as a type token), shape, per-axis dimension-type tags, strides,
device residency, execution stream, an optional buffer (an opaque allocation
identity; `none` = lazy/unallocated), and the view flag. -/
structure H2Tensor where
  ty : Nat
  shape : List Nat
  dim_types : List Nat
  strides : List Nat
  device : Device
  stream : ComputeStream
  buffer : Option Nat
  is_view : Bool
deriving DecidableEq

/-- Modelled from the spec: `numel()` is the number of elements; a
default/emptied tensor (empty shape) has zero elements. -/
def H2Tensor.numel (t : H2Tensor) : Nat :=
  if t.shape = [] then 0 else t.shape.prod

/-- Modelled from the spec: `is_empty()` holds when the tensor has zero
elements. -/
def H2Tensor.is_empty (t : H2Tensor) : Bool := t.numel == 0

/-- Modelled from the spec: `const_data()` is the data pointer (`none` =
`nullptr`, e.g. for a lazy tensor that was never `ensure`d). -/
def H2Tensor.const_data (t : H2Tensor) : Option Nat := t.buffer

/-- Modelled from the spec: `empty()` discards the contents: empty shape, no
buffer. -/
def H2Tensor.empty (t : H2Tensor) : H2Tensor :=
  { t with shape := [], dim_types := [], strides := [], buffer := none }

/-- Modelled from the spec: `resize(shape, dim_types, strides)` sets the
layout metadata (the buffer is materialized separately by `ensure`). -/
def H2Tensor.resize (t : H2Tensor) (shape dim_types strides : List Nat) :
    H2Tensor :=
  { t with shape := shape, dim_types := dim_types, strides := strides }

/-- Modelled from the spec: `ensure()` materializes the lazily-allocated
buffer of a non-empty tensor; an empty tensor has nothing to allocate and a
tensor that already has a buffer keeps it. -/
def H2Tensor.ensure (t : H2Tensor) : H2Tensor :=
  if t.numel = 0 then t
  else
    match t.buffer with
    | some _ => t
    | none => { t with buffer := some (t.stream.id + 1) }

/-- Generalized column-major packed strides of a shape: `1, s0, s0*s1, ...`
(accumulator form). -/
def prefix_strides : List Nat → Nat → List Nat
  | [], _ => []
  | s :: rest, acc => acc :: prefix_strides rest (acc * s)

/-- The packed (fully contiguous) strides for a shape. -/
def contiguous_strides (shape : List Nat) : List Nat := prefix_strides shape 1

/-- Modelled from the spec: `is_contiguous()` holds when the strides are the
packed generalized column-major strides of the shape. -/
def H2Tensor.is_contiguous (t : H2Tensor) : Bool :=
  t.strides == contiguous_strides t.shape

/-- Modelled from the spec: `view()` returns a non-owning view sharing the
buffer, same metadata and stream. -/
def H2Tensor.view (t : H2Tensor) : H2Tensor := { t with is_view := true }

/-- Modelled from the spec: `set_stream` re-points the tensor to a stream. -/
def H2Tensor.set_stream (t : H2Tensor) (s : ComputeStream) : H2Tensor :=
  { t with stream := s }

/-- Modelled from the spec: `get_extent_from_strides(shape, strides)` is the
number of elements spanned by the outer extent implied by the shape and
strides (outermost extent times outermost stride), a safe upper bound rather
than a tight packing (`tensor_types.hpp` is not among the sources). -/
def get_extent_from_strides (shape strides : List Nat) : Nat :=
  shape.getLastD 0 * strides.getLastD 0

/-! ### Tensor copy (`copy.hpp`) -/

/-- `internal::copy_same_type(dst, src)` for local tensors: resize `dst` to
`src`'s shape/dimension types/strides, `ensure` it, then `copy_buffer`
`src.numel()` elements if `src` is contiguous, else
`get_extent_from_strides(src.shape(), src.strides())` elements.  On success
the updated `dst` and the issued copy action are returned. -/
def copy_same_type (debug has_gpu : Bool) (dst src : H2Tensor) :
    Except H2Error (H2Tensor × CopyAct) :=
  let d := (dst.resize src.shape src.dim_types src.strides).ensure
  if src.is_contiguous then
    (copy_buffer debug has_gpu d.buffer d.stream src.buffer src.stream
      src.numel).map (fun a => (d, a))
  else
    (copy_buffer debug has_gpu d.buffer d.stream src.buffer src.stream
      (get_extent_from_strides src.shape src.strides)).map (fun a => (d, a))

/-- `copy(Tensor<DstT>& dst, const Tensor<SrcT>& src)`.  The template
parameters `DstT`/`SrcT` are the `ty` fields, so
`if constexpr (std::is_same_v<SrcT, DstT>)` is the `ty` equality test.  On
success the new `dst` state (and the transfer, if any) is returned; an error
models a throw, which leaves `dst` exactly as it was. -/
def copy (debug has_gpu : Bool) (dst src : H2Tensor) :
    Except H2Error (H2Tensor × Option CopyAct) :=
  if src.is_empty then .ok (dst.empty, none)
  else if src.const_data = none then
    .error (.fatal "Cannot copy a non-empty tensor with no data")
  else if src.ty = dst.ty then
    (copy_same_type debug has_gpu dst src).map (fun p => (p.1, some p.2))
  else
    .error (.exception "Data type conversion in Copy not currently supported")

/-! ### Distributed tensors (`h2/tensor/dist_tensor.hpp` is not among the
sources; the state and primitive operations are modelled from the spec) -/

/-- Modelled from the spec: a `ProcessGrid` describes the participating
processes (`comm`, the membership/communicator identity) and their
arrangement (`grid_shape`). -/
structure ProcessGrid where
  comm : Nat
  grid_shape : List Nat
deriving DecidableEq

/-- Modelled from the spec: two grids are congruent when they describe the
same membership and the same shape. -/
def ProcessGrid.is_congruent_to (g1 g2 : ProcessGrid) : Bool :=
  g1.comm == g2.comm && g1.grid_shape == g2.grid_shape

/-- Modelled from the spec: a `DistTensor<T>`: a global shape, dimension-type
tags, a distribution descriptor (opaque here) over a process grid, and
exactly one owned local tensor holding this process's share. -/
structure H2DistTensor where
  ty : Nat
  shape : List Nat
  dim_types : List Nat
  distribution : List Nat
  proc_grid : ProcessGrid
  local_tensor : H2Tensor
deriving DecidableEq

/-- Modelled from the spec: global element count. -/
def H2DistTensor.numel (t : H2DistTensor) : Nat :=
  if t.shape = [] then 0 else t.shape.prod

/-- Modelled from the spec: `is_empty()` — globally zero elements. -/
def H2DistTensor.is_empty (t : H2DistTensor) : Bool := t.numel == 0

/-- Modelled from the spec: `is_local_empty()` — this process's share is
empty. -/
def H2DistTensor.is_local_empty (t : H2DistTensor) : Bool :=
  t.local_tensor.is_empty

/-- Modelled from the spec: `const_data()` — the local tensor's data
pointer. -/
def H2DistTensor.const_data (t : H2DistTensor) : Option Nat :=
  t.local_tensor.buffer

/-- Modelled from the spec: `empty()` discards the contents globally and
locally; the process grid is unchanged. -/
def H2DistTensor.empty (t : H2DistTensor) : H2DistTensor :=
  { t with
    shape := []
    dim_types := []
    distribution := []
    local_tensor := t.local_tensor.empty }

/-- Modelled from the spec: `resize(shape, dim_types, distribution)` sets the
global metadata and resizes the owned local tensor to this process's share.
Computing the local share from shape/distribution/grid is internal to
`dist_tensor.hpp` (not among the sources) and is modelled as the trivial
single-process share (the whole shape, packed); none of the verified claims
inspect the resized local metadata. -/
def H2DistTensor.resize (t : H2DistTensor)
    (shape dim_types distribution : List Nat) : H2DistTensor :=
  { t with
    shape := shape
    dim_types := dim_types
    distribution := distribution
    local_tensor := t.local_tensor.resize shape dim_types (contiguous_strides shape) }

/-- Modelled from the spec: `ensure()` materializes the local buffer. -/
def H2DistTensor.ensure (t : H2DistTensor) : H2DistTensor :=
  { t with local_tensor := t.local_tensor.ensure }

/-- `internal::copy_same_type(dst, src)` for distributed tensors: resize and
`ensure` `dst`, return early if this process's share of `src` is empty,
`copy_buffer` the local share if it is contiguous, else throw the
unimplemented-non-contiguous error. -/
def copy_same_type_dist (debug has_gpu : Bool) (dst src : H2DistTensor) :
    Except H2Error (H2DistTensor × Option CopyAct) :=
  let d := ((dst.resize src.shape src.dim_types src.distribution)).ensure
  if src.is_local_empty then .ok (d, none)
  else if src.local_tensor.is_contiguous then
    (copy_buffer debug has_gpu d.local_tensor.buffer d.local_tensor.stream
      src.local_tensor.buffer src.local_tensor.stream
      src.local_tensor.numel).map (fun a => (d, some a))
  else
    .error (.exception
      "Copying distributed tensors with non-contiguous local data is not supported")

/-- `copy(DistTensor<DstT>& dst, const DistTensor<SrcT>& src)`: the
congruency debug assertion, then the global-empty early-out, then the
always-on no-data assertion, then the `if constexpr` type test.  `debug`
models whether `H2_ASSERT_DEBUG` is compiled in (the congruency check is a
debug assertion; the no-data check is `H2_ASSERT_ALWAYS`). -/
def copy_dist (debug has_gpu : Bool) (dst src : H2DistTensor) :
    Except H2Error (H2DistTensor × Option CopyAct) :=
  if debug ∧ ¬(src.proc_grid.is_congruent_to dst.proc_grid) then
    .error (.fatal "Cannot copy between DistTensors on non-congruent processor grids")
  else if src.is_empty then .ok (dst.empty, none)
  else if ¬(src.is_local_empty ∨ src.const_data ≠ none) then
    .error (.fatal "Cannot copy a non-empty distributed tensor with no data")
  else if src.ty = dst.ty then copy_same_type_dist debug has_gpu dst src
  else
    .error (.exception "Data type conversion is copy is not currently supported")

/-- `make_accessible_on_device(src, dev, stream?)`: if `src` is already on
`dev`, return a view, re-pointed to `stream` only when one was supplied
(`src` itself is unchanged: `set_stream` is applied to the view).  Otherwise,
with GPU support, either return a device-retagged view (unified-memory
systems, `gpu::is_integrated()`, modelled by `integrated`) or allocate a
fresh tensor on `dev` (shape/dim types of `src`, packed strides, strict
allocation) and `copy` into it; without GPU support throw "Unknown device". -/
def make_accessible_on_device (debug has_gpu integrated : Bool)
    (src : H2Tensor) (dev : Device) (stream : Option ComputeStream) :
    Except H2Error (H2Tensor × Option CopyAct) :=
  if src.device = dev then
    match stream with
    | some s => .ok ((src.view).set_stream s, none)
    | none => .ok (src.view, none)
  else
    let real_stream := stream.getD ⟨dev, 0⟩
    if has_gpu then
      if integrated then
        .ok ({ src.view with device := dev, stream := real_stream }, none)
      else
        let dst0 : H2Tensor :=
          { ty := src.ty
            shape := src.shape
            dim_types := src.dim_types
            strides := contiguous_strides src.shape
            device := dev
            stream := real_stream
            buffer := some (real_stream.id + 1)
            is_view := false }
        copy debug has_gpu dst0 src
    else .error (.exception "Unknown device")

/-! ### Scalar index utilities (`h2/tensor/tensor_utils.hpp`) -/

/-- The carry loop of `next_scalar_index`:
`for (dim = 0; dim < idx.size() - 1; ++dim) if (next_idx[dim] == shape[dim]) { next_idx[dim] = 0; next_idx[dim+1] += 1; }`
as a recursion over the paired index/shape lists (the loop body runs for
every dimension but the last; the carry increments the next position before
the loop inspects it). -/
def next_scalar_index_carry : List Nat → List Nat → List Nat
  | i :: j :: rest, s :: srest =>
    if i = s then 0 :: next_scalar_index_carry ((j + 1) :: rest) srest
    else i :: next_scalar_index_carry (j :: rest) srest
  | idx, _ => idx

/-- `next_scalar_index(idx, shape)`: increment position 0, run the carry
loop, and if the last position reached its extent return
`ScalarIndexTuple::convert_from(shape)` (the shape itself, as the
one-past-the-end index). -/
def next_scalar_index (idx shape : List Nat) : List Nat :=
  let start :=
    match idx with
    | [] => []
    | i :: rest => (i + 1) :: rest
  let next_idx := next_scalar_index_carry start shape
  if next_idx.getLastD 0 = shape.getLastD 0 then shape else next_idx

/-- Spec side: `idx` is a valid scalar index in `shape` (same rank, each
coordinate strictly below its extent), as `is_index_in_shape` requires. -/
def index_lt_shape : List Nat → List Nat → Bool
  | [], [] => true
  | i :: irest, s :: srest => decide (i < s) && index_lt_shape irest srest
  | _, _ => false

/-- Spec side: `idx` is the last index of `shape` (each coordinate is its
extent minus one). -/
def is_last_index : List Nat → List Nat → Bool
  | [], [] => true
  | i :: irest, s :: srest => decide (i + 1 = s) && is_last_index irest srest
  | _, _ => false

/-- Spec side: the linear position of an index in the generalized
column-major order of a shape (dimension 0 varies fastest). -/
def colex_linear_index : List Nat → List Nat → Nat
  | i :: irest, s :: srest => i + s * colex_linear_index irest srest
  | _, _ => 0

/-- Spec side: the mathematical column-major successor of an index (without
the one-past-the-end wrap of the last dimension). -/
def colex_succ : List Nat → List Nat → List Nat
  | [i], _ => [i + 1]
  | i :: j :: rest, s :: srest =>
    if i + 1 = s then 0 :: colex_succ (j :: rest) srest
    else (i + 1) :: j :: rest
  | idx, _ => idx

end h2

namespace h2

/-! ### Lemmas about the token packing -/

theorem foldl_lor_init {α : Type} (f : α → Nat) (l : List α) (init : Nat) :
    l.foldl (fun key i => key ||| f i) init
      = init ||| l.foldl (fun key i => key ||| f i) 0 := by
  induction l generalizing init with
  | nil => simp
  | cons x xs ih =>
    simp only [List.foldl_cons]
    rw [ih (init ||| f x), ih (0 ||| f x)]
    simp [Nat.or_assoc]

theorem pack_dispatch_tokens_init (bits : Nat) (tokens : List Nat) (init : Nat) :
    pack_dispatch_tokens bits tokens init = init ||| pack_dispatch_tokens bits tokens 0 := by
  unfold pack_dispatch_tokens
  exact foldl_lor_init _ _ init

theorem pack_dispatch_tokens_nil (bits init : Nat) :
    pack_dispatch_tokens bits [] init = init := rfl

theorem pack_dispatch_tokens_cons (bits t : Nat) (rest : List Nat) :
    pack_dispatch_tokens bits (t :: rest) 0
      = (t <<< (bits * rest.length)) ||| pack_dispatch_tokens bits rest 0 := by
  unfold pack_dispatch_tokens
  simp only [List.length_cons, List.range_succ_eq_map, List.foldl_cons, List.foldl_map]
  rw [foldl_lor_init]
  congr 1
  · simp
  · apply List.foldl_ext
    intro acc i _
    simp only [Nat.succ_eq_add_one, List.getD_cons_succ]
    have harith : rest.length + 1 - 1 - (i + 1) = rest.length - 1 - i := by omega
    rw [harith]

theorem pack_dispatch_tokens_lt (bits : Nat) (tokens : List Nat)
    (hv : ∀ t ∈ tokens, t < 2 ^ bits) :
    pack_dispatch_tokens bits tokens 0 < 2 ^ (bits * tokens.length) := by
  induction tokens with
  | nil => simp [pack_dispatch_tokens_nil]
  | cons t rest ih =>
    rw [pack_dispatch_tokens_cons]
    apply Nat.or_lt_two_pow
    · have ht : t < 2 ^ bits := hv t (List.mem_cons_self t rest)
      calc t <<< (bits * rest.length) = t * 2 ^ (bits * rest.length) := Nat.shiftLeft_eq ..
        _ < 2 ^ bits * 2 ^ (bits * rest.length) := by
            exact Nat.mul_lt_mul_of_lt_of_le ht (Nat.le_refl _) (Nat.two_pow_pos _)
        _ = 2 ^ (bits * (rest.length + 1)) := by rw [← Nat.pow_add]; ring_nf
    · have := ih (fun x hx => hv x (List.mem_cons_of_mem t hx))
      calc pack_dispatch_tokens bits rest 0 < 2 ^ (bits * rest.length) := this
        _ ≤ 2 ^ (bits * (rest.length + 1)) := by
            apply Nat.pow_le_pow_right (by omega)
            exact Nat.mul_le_mul_left bits (by omega)

theorem shiftLeft_lor_eq_add {b : Nat} (a n : Nat) (hb : b < 2 ^ n) :
    (a <<< n) ||| b = a * 2 ^ n + b := by
  rw [Nat.shiftLeft_eq, Nat.mul_comm a (2 ^ n), ← Nat.mul_add_lt_is_or hb a,
    Nat.mul_comm (2 ^ n) a]

theorem high_extract (a : Nat) {b n : Nat} (hb : b < 2 ^ n) :
    (a * 2 ^ n + b) >>> n = a := by
  rw [Nat.shiftRight_eq_div_pow, Nat.mul_comm a (2 ^ n),
    Nat.mul_add_div (Nat.two_pow_pos n), Nat.div_eq_of_lt hb]
  omega

theorem extract_high_cancel (bits a rst S E : Nat) (hE : bits ≤ E) :
    ((a * 2 ^ (S + E) + rst) >>> S) % 2 ^ bits = (rst >>> S) % 2 ^ bits := by
  rw [Nat.shiftRight_eq_div_pow, Nat.shiftRight_eq_div_pow, Nat.pow_add]
  rw [show a * (2 ^ S * 2 ^ E) + rst = 2 ^ S * (a * 2 ^ E) + rst by ring]
  rw [Nat.mul_add_div (Nat.two_pow_pos S)]
  obtain ⟨c, hc⟩ : 2 ^ bits ∣ a * 2 ^ E :=
    Dvd.dvd.mul_left (pow_dvd_pow 2 hE) a
  rw [hc, Nat.mul_add_mod]

theorem pack_extract (bits : Nat) (tokens : List Nat)
    (hv : ∀ t ∈ tokens, t < 2 ^ bits) (j : Nat) (hj : j < tokens.length) :
    (pack_dispatch_tokens bits tokens 0 >>> (bits * (tokens.length - 1 - j))) % 2 ^ bits
      = tokens.getD j 0 := by
  induction tokens generalizing j with
  | nil => simp at hj
  | cons t rest ih =>
    have ht : t < 2 ^ bits := hv t (List.mem_cons_self t rest)
    have hrest : ∀ x ∈ rest, x < 2 ^ bits := fun x hx => hv x (List.mem_cons_of_mem t hx)
    have hplt : pack_dispatch_tokens bits rest 0 < 2 ^ (bits * rest.length) :=
      pack_dispatch_tokens_lt bits rest hrest
    rw [pack_dispatch_tokens_cons, shiftLeft_lor_eq_add t (bits * rest.length) hplt]
    match j with
    | 0 =>
      have hlen : (t :: rest).length - 1 - 0 = rest.length := by simp
      rw [hlen, high_extract t hplt, List.getD_cons_zero, Nat.mod_eq_of_lt ht]
    | k + 1 =>
      have hk : k < rest.length := by simpa using hj
      have hsplit : bits * rest.length
          = bits * (rest.length - 1 - k) + bits * (k + 1) := by
        rw [← Nat.mul_add]
        congr 1
        omega
      have hsh : (t :: rest).length - 1 - (k + 1) = rest.length - 1 - k := by
        simp only [List.length_cons]
        omega
      rw [hsh, hsplit,
        extract_high_cancel bits t (pack_dispatch_tokens bits rest 0)
          (bits * (rest.length - 1 - k)) (bits * (k + 1)) (by nlinarith),
        List.getD_cons_succ]
      exact ih hrest k hk

theorem pack_dispatch_tokens_zero (bits : Nat) (n : Nat) :
    pack_dispatch_tokens bits (List.replicate n 0) 0 = 0 := by
  induction n with
  | zero => rfl
  | succ m ih =>
    rw [List.replicate_succ, pack_dispatch_tokens_cons, ih]
    simp [Nat.zero_shiftLeft]

theorem getD_eq_getElem_of_lt (l : List Nat) {j : Nat} (hj : j < l.length) :
    l.getD j 0 = l.get ⟨j, hj⟩ := by
  simp [List.getD_eq_getElem?_getD, List.getElem?_eq_getElem hj]

theorem native_pack_decode (bits : Nat) (tokens : List Nat)
    (hv : ∀ t ∈ tokens, t < 2 ^ bits) (w : Nat) (hw : bits * tokens.length ≤ w) :
    decode_native_dispatch_key bits tokens.length
      ((pack_dispatch_tokens bits tokens 0) % 2 ^ w) = tokens := by
  have hlt : pack_dispatch_tokens bits tokens 0 < 2 ^ w :=
    Nat.lt_of_lt_of_le (pack_dispatch_tokens_lt bits tokens hv)
      (Nat.pow_le_pow_right (by omega) hw)
  rw [Nat.mod_eq_of_lt hlt]
  unfold decode_native_dispatch_key
  apply List.ext_getElem
  · simp
  · intro j h1 h2
    have hj : j < tokens.length := h2
    simp only [List.getElem_map, List.getElem_range]
    rw [pack_extract bits tokens hv j hj, getD_eq_getElem_of_lt tokens hj]
    simp

theorem max_dispatch_types_bound (bits : Nat) {n : Nat}
    (hlen : n ≤ max_dispatch_types_for bits) :
    bits * n ≤ 56 ∧ n ≤ 56 := by
  have h : max_dispatch_types_for bits = 56 / bits := by
    unfold max_dispatch_types_for
    norm_num
  rw [h] at hlen
  constructor
  · rcases Nat.eq_zero_or_pos bits with hb0 | hb0
    · simp [hb0]
    · have h2 := (Nat.le_div_iff_mul_le hb0).mp hlen
      calc bits * n = n * bits := Nat.mul_comm ..
        _ ≤ 56 := h2
  · exact le_trans hlen (Nat.div_le_self 56 bits)

theorem general_dispatch_key_split (bits : Nat) (tokens : List Nat)
    (hlen : tokens.length ≤ max_dispatch_types_for bits)
    (hv : ∀ t ∈ tokens, t < 2 ^ bits) :
    get_dispatch_key bits tokens
      = tokens.length * 2 ^ 56 + pack_dispatch_tokens bits tokens 0 := by
  obtain ⟨hbN, hN⟩ := max_dispatch_types_bound bits hlen
  have hpack : pack_dispatch_tokens bits tokens 0 < 2 ^ 56 :=
    Nat.lt_of_lt_of_le (pack_dispatch_tokens_lt bits tokens hv)
      (Nat.pow_le_pow_right (by omega) hbN)
  have hshift : dispatch_key_top_byte_shift = 56 := by
    norm_num [dispatch_key_top_byte_shift]
  unfold get_dispatch_key
  rw [hshift, pack_dispatch_tokens_init,
    shiftLeft_lor_eq_add tokens.length 56 hpack]
  apply Nat.mod_eq_of_lt
  have h2 : tokens.length * 2 ^ 56 ≤ 56 * 2 ^ 56 := Nat.mul_le_mul_right _ hN
  omega

theorem general_dispatch_key_decode (bits : Nat) (tokens : List Nat)
    (hlen : tokens.length ≤ max_dispatch_types_for bits)
    (hv : ∀ t ∈ tokens, t < 2 ^ bits) :
    decode_general_dispatch_key bits (get_dispatch_key bits tokens)
      = (tokens.length, tokens) := by
  obtain ⟨hbN, hN⟩ := max_dispatch_types_bound bits hlen
  have hpack : pack_dispatch_tokens bits tokens 0 < 2 ^ 56 :=
    Nat.lt_of_lt_of_le (pack_dispatch_tokens_lt bits tokens hv)
      (Nat.pow_le_pow_right (by omega) hbN)
  have hshift : dispatch_key_top_byte_shift = 56 := by
    norm_num [dispatch_key_top_byte_shift]
  rw [general_dispatch_key_split bits tokens hlen hv]
  unfold decode_general_dispatch_key
  rw [hshift]
  have htop : (tokens.length * 2 ^ 56 + pack_dispatch_tokens bits tokens 0) >>> 56
      = tokens.length := high_extract tokens.length hpack
  rw [htop]
  refine Prod.ext rfl ?_
  apply List.ext_getElem
  · simp
  · intro j h1 h2
    have hj : j < tokens.length := by simpa using h1
    simp only [List.getElem_map, List.getElem_range]
    have hS : bits * (tokens.length - 1 - j) + bits ≤ 56 := by
      have hj1 : tokens.length - 1 - j + 1 ≤ tokens.length := by omega
      calc bits * (tokens.length - 1 - j) + bits
          = bits * (tokens.length - 1 - j + 1) := by ring
        _ ≤ bits * tokens.length := Nat.mul_le_mul_left bits hj1
        _ ≤ 56 := hbN
    have hsplit : (56 : Nat)
        = bits * (tokens.length - 1 - j) + (56 - bits * (tokens.length - 1 - j)) := by
      omega
    rw [hsplit,
      extract_high_cancel bits tokens.length (pack_dispatch_tokens bits tokens 0)
        (bits * (tokens.length - 1 - j)) (56 - bits * (tokens.length - 1 - j)) (by omega),
      pack_extract bits tokens hv j hj, getD_eq_getElem_of_lt tokens hj]
    simp

/-- Claim C1: for every arity `N ≤ max_dispatch_types` and every tuple of `N`
valid type tokens (tokens that fit in the per-token bit width), the general
dispatch key built by `get_dispatch_key` stores `N` in the top byte and packs
the tokens most-significant-first, and the encoding is injective: decoding the
key recovers both `N` and the ordered tokens exactly, and two different tuples
(including tuples of different lengths) never produce the same general key.
The per-token width `dispatch_bits_per_compute_type` is the parameter `bits`
(its defining constant `TypeInfo::max_token` is not among the sources). -/
theorem c1_general_dispatch_key_roundtrip_injective (bits : Nat) :
    (∀ tokens : List Nat, tokens.length ≤ max_dispatch_types_for bits →
      (∀ t ∈ tokens, t < 2 ^ bits) →
      decode_general_dispatch_key bits (get_dispatch_key bits tokens)
        = (tokens.length, tokens)) ∧
    (∀ t1 t2 : List Nat, t1.length ≤ max_dispatch_types_for bits →
      t2.length ≤ max_dispatch_types_for bits →
      (∀ t ∈ t1, t < 2 ^ bits) → (∀ t ∈ t2, t < 2 ^ bits) →
      get_dispatch_key bits t1 = get_dispatch_key bits t2 → t1 = t2) := by
  constructor
  · intro tokens hlen hv
    exact general_dispatch_key_decode bits tokens hlen hv
  · intro t1 t2 hl1 hl2 hv1 hv2 heq
    have h1 := general_dispatch_key_decode bits t1 hl1 hv1
    have h2 := general_dispatch_key_decode bits t2 hl2 hv2
    rw [heq] at h1
    rw [h1] at h2
    exact (Prod.ext_iff.mp h2).2

/-- Witness for C1 at `bits = 8`, tokens `[5, 6]`. -/
theorem c1_witness :
    decode_general_dispatch_key 8 (get_dispatch_key 8 [5, 6]) = (2, [5, 6]) :=
  (c1_general_dispatch_key_roundtrip_injective 8).1 [5, 6]
    (by norm_num [max_dispatch_types_for]) (by decide)

/-- Claim C2: `get_native_dispatch_key` packs `N` tokens using
`ceil(log2(NumComputeTypes))` bits per token, most-significant token first,
with no arity field: for every fixed `N` (supported by the key type, i.e.
`N ≤ max_native_dispatch_types`), distinct tuples of in-range native tokens
yield distinct native keys (equivalently, the caller-side decoder recovers the
tokens), while across different arities keys collide: for every `M` and `N`
the native key built from `M` all-zero tokens equals the one built from `N`
all-zero tokens. -/
theorem dispatch_bits_per_native_compute_type_eq :
    dispatch_bits_per_native_compute_type = 2 := by
  have h4 : NumComputeTypes = 2 ^ 2 := by norm_num [NumComputeTypes]
  unfold dispatch_bits_per_native_compute_type ceillog2
  rw [h4, Nat.clog_pow 2 2 (by norm_num)]

theorem max_native_dispatch_types_eq : max_native_dispatch_types = 32 := by
  unfold max_native_dispatch_types
  rw [dispatch_bits_per_native_compute_type_eq]

theorem c2_native_dispatch_key :
    (∀ tokens : List Nat, tokens.length ≤ max_native_dispatch_types →
      (∀ t ∈ tokens, t < NumComputeTypes) →
      decode_native_dispatch_key dispatch_bits_per_native_compute_type tokens.length
        (get_native_dispatch_key tokens) = tokens) ∧
    (∀ t1 t2 : List Nat, t1.length = t2.length →
      t1.length ≤ max_native_dispatch_types →
      (∀ t ∈ t1, t < NumComputeTypes) → (∀ t ∈ t2, t < NumComputeTypes) →
      get_native_dispatch_key t1 = get_native_dispatch_key t2 → t1 = t2) ∧
    (∀ m n : Nat,
      get_native_dispatch_key (List.replicate m 0)
        = get_native_dispatch_key (List.replicate n 0)) := by
  have hbits : dispatch_bits_per_native_compute_type = 2 :=
    dispatch_bits_per_native_compute_type_eq
  have hconv : ∀ tokens : List Nat, (∀ t ∈ tokens, t < NumComputeTypes) →
      ∀ t ∈ tokens, t < 2 ^ dispatch_bits_per_native_compute_type := by
    intro tokens hv t ht
    have := hv t ht
    rw [hbits]
    unfold NumComputeTypes at this
    omega
  have hdec : ∀ tokens : List Nat, tokens.length ≤ max_native_dispatch_types →
      (∀ t ∈ tokens, t < NumComputeTypes) →
      decode_native_dispatch_key dispatch_bits_per_native_compute_type tokens.length
        (get_native_dispatch_key tokens) = tokens := by
    intro tokens hlen hv
    unfold get_native_dispatch_key
    apply native_pack_decode
    · exact hconv tokens hv
    · unfold byteceil
      omega
  refine ⟨hdec, ?_, ?_⟩
  · intro t1 t2 hlen hl1 hv1 hv2 heq
    have h1 := hdec t1 hl1 hv1
    have h2 := hdec t2 (hlen ▸ hl1) hv2
    rw [heq, hlen] at h1
    rw [h1] at h2
    exact h2
  · intro m n
    unfold get_native_dispatch_key
    rw [pack_dispatch_tokens_zero, pack_dispatch_tokens_zero]
    simp

/-- Witness for C2: round-trip at tokens `[1, 2]`, collision at `M = 1`, `N = 2`. -/
theorem c2_witness :
    decode_native_dispatch_key dispatch_bits_per_native_compute_type 2
        (get_native_dispatch_key [1, 2]) = [1, 2] ∧
      get_native_dispatch_key (List.replicate 1 0)
        = get_native_dispatch_key (List.replicate 2 0) :=
  ⟨c2_native_dispatch_key.1 [1, 2] (by rw [max_native_dispatch_types_eq]; decide)
      (by decide),
    c2_native_dispatch_key.2.2 1 2⟩

/-- Claim C3: for every name, dispatch key, and function `f`: after
`dispatch_register(name, key, f)`, looking up `(name, key)` returns the
dispatch entry holding `f`, and calling that entry invokes `f`; after
`dispatch_unregister(name, key)`, a subsequent lookup of `(name, key)` fails
with the not-found error (`get_dispatch_entry` throws). -/
theorem c3_register_lookup_unregister (α β : Type) (name : String) (key : Nat)
    (f : α → β) (reg : DispatchRegistry α β) :
    get_dispatch_entry name key (dispatch_register name key f reg) = .ok ⟨f⟩ ∧
    (∀ x, dispatch_call (⟨f⟩ : DispatchFunctionEntry α β) x = f x) ∧
    get_dispatch_entry name key
        (dispatch_unregister name key (dispatch_register name key f reg))
      = .error (.exception "Dispatch entry not found") := by
  refine ⟨?_, fun x => rfl, ?_⟩
  · simp [get_dispatch_entry, dispatch_register, add_dispatch_entry, List.find?]
  · unfold get_dispatch_entry
    suffices h : List.find? (fun p => decide (p.1 = (name, key)))
        (dispatch_unregister name key (dispatch_register name key f reg)) = none by
      rw [h]
    apply List.find?_eq_none.mpr
    intro p hp
    unfold dispatch_unregister at hp
    rw [List.mem_filter] at hp
    simpa using hp.2

/-- Claim C4: for every argument tuple containing a value whose runtime type is
not a recognized compute type, constructing the dispatch descriptor
(`DispatchOn`) raises `H2FatalException`, and the whole dispatch pipeline
fails with that same error: since the descriptor construction fails, the
pipeline never reaches `do_dispatch`, which is the only place a dispatch key
(native or general) is constructed from the tokens. -/
theorem c4_dispatch_non_compute_type_fatal {α β : Type} (args : List TypeInfo)
    (h : ∃ a ∈ args, is_compute_type a = false) :
    DispatchOn.construct args
        = .error (.fatal "Attempt to dispatch on a non-compute type") ∧
    ∀ (bits : Nat) (table : List (DispatchFunctionEntry α β)) (name : String)
      (reg : DispatchRegistry α β) (x : α),
      dispatch_pipeline bits table name reg args x
        = .error (.fatal "Attempt to dispatch on a non-compute type") := by
  have hall : all_compute_types args = false := by
    obtain ⟨a, ha, hfa⟩ := h
    unfold all_compute_types
    rw [List.all_eq_false]
    exact ⟨a, ha, by simp [hfa]⟩
  constructor
  · unfold DispatchOn.construct
    rw [hall]
    simp
  · intro bits table name reg x
    unfold dispatch_pipeline DispatchOn.construct
    rw [hall]
    simp [Except.bind]

/-- Witness for C4: a single argument whose runtime type is not a compute type. -/
theorem c4_witness :
    DispatchOn.construct [⟨7, false, false⟩]
      = .error (.fatal "Attempt to dispatch on a non-compute type") :=
  (c4_dispatch_non_compute_type_fatal (α := Nat) (β := Nat) [⟨7, false, false⟩]
    ⟨⟨7, false, false⟩, List.mem_singleton.mpr rfl, rfl⟩).1

theorem ensure_shape (t : H2Tensor) : t.ensure.shape = t.shape := by
  unfold H2Tensor.ensure
  split
  · rfl
  · split <;> rfl

theorem ensure_dim_types (t : H2Tensor) : t.ensure.dim_types = t.dim_types := by
  unfold H2Tensor.ensure
  split
  · rfl
  · split <;> rfl

theorem ensure_strides (t : H2Tensor) : t.ensure.strides = t.strides := by
  unfold H2Tensor.ensure
  split
  · rfl
  · split <;> rfl

theorem ensure_buffer_ne_none (t : H2Tensor) (h : t.numel ≠ 0) :
    t.ensure.buffer ≠ none := by
  unfold H2Tensor.ensure
  rw [if_neg h]
  split
  · intro hcontra
    simp_all
  · simp

/-- Counterexample to C5 as stated: a non-empty lazy source whose buffer was
never materialized.  The element types differ and the source is non-empty,
but `copy` fails with the always-on no-data assertion
(`H2FatalException "Cannot copy a non-empty tensor with no data"`), not with
the "conversion not supported" error the claim requires. -/
theorem c5_counterexample :
    ((⟨0, [2], [0], [1], .CPU, ⟨.CPU, 0⟩, none, false⟩ : H2Tensor).ty
        ≠ (⟨1, [2], [0], [1], .CPU, ⟨.CPU, 0⟩, some 5, false⟩ : H2Tensor).ty) ∧
    ((⟨0, [2], [0], [1], .CPU, ⟨.CPU, 0⟩, none, false⟩ : H2Tensor).is_empty
        = false) ∧
    copy true false (⟨1, [2], [0], [1], .CPU, ⟨.CPU, 0⟩, some 5, false⟩ : H2Tensor)
        (⟨0, [2], [0], [1], .CPU, ⟨.CPU, 0⟩, none, false⟩ : H2Tensor)
      = .error (.fatal "Cannot copy a non-empty tensor with no data") ∧
    copy true false (⟨1, [2], [0], [1], .CPU, ⟨.CPU, 0⟩, some 5, false⟩ : H2Tensor)
        (⟨0, [2], [0], [1], .CPU, ⟨.CPU, 0⟩, none, false⟩ : H2Tensor)
      ≠ .error (.exception "Data type conversion in Copy not currently supported") := by
  refine ⟨by decide, by decide, by decide, by decide⟩

/-- Claim C5 (amended): for tensors whose element types differ, with a
non-empty source whose data is materialized (ensured) — and, for distributed
tensors, congruent process grids and a materialized or locally-empty source,
as the preceding checks in `copy` require — `copy(dst, src)` raises the
explicit "conversion not supported" `H2Exception`, which is distinguishable
from the `H2FatalException` used for fatal errors; the error is raised before
any resize or transfer, so `dst` is left unchanged by the failing call (the
embedding returns the would-be new `dst` only on success). -/
theorem c5_amended_conversion_not_supported (debug has_gpu : Bool)
    (dst src : H2Tensor) (dstD srcD : H2DistTensor)
    (h1 : src.ty ≠ dst.ty) (h2 : src.is_empty = false)
    (h3 : src.const_data ≠ none)
    (h4 : srcD.ty ≠ dstD.ty) (h5 : srcD.is_empty = false)
    (h6 : srcD.proc_grid.is_congruent_to dstD.proc_grid = true)
    (h7 : srcD.is_local_empty = true ∨ srcD.const_data ≠ none) :
    copy debug has_gpu dst src
        = .error (.exception "Data type conversion in Copy not currently supported") ∧
    copy_dist debug has_gpu dstD srcD
        = .error (.exception "Data type conversion is copy is not currently supported") ∧
    (∀ msg, (H2Error.exception "Data type conversion in Copy not currently supported")
        ≠ H2Error.fatal msg) ∧
    (∀ msg, (H2Error.exception "Data type conversion is copy is not currently supported")
        ≠ H2Error.fatal msg) := by
  refine ⟨?_, ?_, ?_, ?_⟩
  · simp [copy, h1, h2, h3]
  · rcases h7 with h7 | h7 <;> simp [copy_dist, h4, h5, h6, h7]
  · intro msg hcontra
    cases hcontra
  · intro msg hcontra
    cases hcontra

/-- Witness for C5 (amended) at concrete tensors and distributed tensors. -/
theorem c5_witness :
    copy false false (⟨1, [2], [0], [1], .CPU, ⟨.CPU, 0⟩, some 5, false⟩ : H2Tensor)
        (⟨0, [2], [0], [1], .CPU, ⟨.CPU, 0⟩, some 3, false⟩ : H2Tensor)
      = .error (.exception "Data type conversion in Copy not currently supported") ∧
    copy_dist false false
        (⟨1, [2], [0], [0], ⟨0, [1]⟩,
          ⟨1, [2], [0], [1], .CPU, ⟨.CPU, 0⟩, some 6, false⟩⟩ : H2DistTensor)
        (⟨0, [2], [0], [0], ⟨0, [1]⟩,
          ⟨0, [2], [0], [1], .CPU, ⟨.CPU, 0⟩, some 3, false⟩⟩ : H2DistTensor)
      = .error (.exception "Data type conversion is copy is not currently supported") := by
  have h := c5_amended_conversion_not_supported false false
    (⟨1, [2], [0], [1], .CPU, ⟨.CPU, 0⟩, some 5, false⟩ : H2Tensor)
    (⟨0, [2], [0], [1], .CPU, ⟨.CPU, 0⟩, some 3, false⟩ : H2Tensor)
    (⟨1, [2], [0], [0], ⟨0, [1]⟩,
      ⟨1, [2], [0], [1], .CPU, ⟨.CPU, 0⟩, some 6, false⟩⟩ : H2DistTensor)
    (⟨0, [2], [0], [0], ⟨0, [1]⟩,
      ⟨0, [2], [0], [1], .CPU, ⟨.CPU, 0⟩, some 3, false⟩⟩ : H2DistTensor)
    (by decide) (by decide) (by decide) (by decide) (by decide) (by decide)
    (Or.inr (by decide))
  exact ⟨h.1, h.2.1⟩

/-- Counterexample to C6 as stated: with debug assertions compiled out
(release build, `H2_ASSERT_DEBUG` disabled), `copy` between DistTensors on
non-congruent process grids does not fail at all — here, with an empty
source, it succeeds and empties the destination. -/
theorem c6_counterexample :
    ((⟨0, [], [], [], ⟨0, [1]⟩,
        ⟨0, [], [], [], .CPU, ⟨.CPU, 0⟩, none, false⟩⟩ : H2DistTensor).proc_grid.is_congruent_to
      (⟨0, [2], [0], [0], ⟨1, [1]⟩,
        ⟨0, [2], [0], [1], .CPU, ⟨.CPU, 0⟩, some 4, false⟩⟩ : H2DistTensor).proc_grid
      = false) ∧
    ∃ r, copy_dist false false
        (⟨0, [2], [0], [0], ⟨1, [1]⟩,
          ⟨0, [2], [0], [1], .CPU, ⟨.CPU, 0⟩, some 4, false⟩⟩ : H2DistTensor)
        (⟨0, [], [], [], ⟨0, [1]⟩,
          ⟨0, [], [], [], .CPU, ⟨.CPU, 0⟩, none, false⟩⟩ : H2DistTensor)
      = .ok r :=
  ⟨by decide, ⟨_, rfl⟩⟩

/-- Claim C6 (amended): in builds with debug checking enabled, for every pair
of distributed tensors whose process grids are not congruent, `copy(dst, src)`
fails with the congruency assertion before any data movement: the result is
the congruency error for every `src` and `dst` — in particular also when
`src` is empty — so the check precedes the empty-source check and any resize
or buffer copy, and `dst`'s buffer and shape are untouched by the failing
call. -/
theorem c6_amended_congruency_checked_first (has_gpu : Bool)
    (dst src : H2DistTensor)
    (h : src.proc_grid.is_congruent_to dst.proc_grid = false) :
    copy_dist true has_gpu dst src
      = .error (.fatal "Cannot copy between DistTensors on non-congruent processor grids") := by
  simp [copy_dist, h]

/-- Witness for C6 (amended): non-congruent grids, empty source, debug on. -/
theorem c6_witness :
    copy_dist true false
        (⟨0, [2], [0], [0], ⟨1, [1]⟩,
          ⟨0, [2], [0], [1], .CPU, ⟨.CPU, 0⟩, some 4, false⟩⟩ : H2DistTensor)
        (⟨0, [], [], [], ⟨0, [1]⟩,
          ⟨0, [], [], [], .CPU, ⟨.CPU, 0⟩, none, false⟩⟩ : H2DistTensor)
      = .error (.fatal "Cannot copy between DistTensors on non-congruent processor grids") :=
  c6_amended_congruency_checked_first false
    (⟨0, [2], [0], [0], ⟨1, [1]⟩,
      ⟨0, [2], [0], [1], .CPU, ⟨.CPU, 0⟩, some 4, false⟩⟩ : H2DistTensor)
    (⟨0, [], [], [], ⟨0, [1]⟩,
      ⟨0, [], [], [], .CPU, ⟨.CPU, 0⟩, none, false⟩⟩ : H2DistTensor)
    (by decide)

/-- Claim C7: for every non-empty source tensor, `copy_same_type` first
resizes `dst` to `src`'s shape, dimension types, and strides and ensures
(materializes) it — the resized-and-ensured `d` below has `src`'s layout and
a non-null buffer — and then the transfer (`copy_buffer`) moves exactly
`numel(src)` elements when `src` is fully contiguous and exactly
`get_extent_from_strides(src.shape, src.strides)` elements (the conservative
outer-extent bound) when it is not. -/
theorem c7_copy_resize_ensure_then_transfer (debug has_gpu : Bool)
    (dst src : H2Tensor) (h : src.is_empty = false) :
    ∃ d : H2Tensor,
      copy_same_type debug has_gpu dst src
          = (copy_buffer debug has_gpu d.buffer d.stream src.buffer src.stream
              (if src.is_contiguous then src.numel
               else get_extent_from_strides src.shape src.strides)).map
            (fun a => (d, a)) ∧
      d.shape = src.shape ∧ d.dim_types = src.dim_types ∧
      d.strides = src.strides ∧ d.buffer ≠ none := by
  refine ⟨(dst.resize src.shape src.dim_types src.strides).ensure, ?_, ?_, ?_, ?_, ?_⟩
  · by_cases hc : src.is_contiguous = true
    · simp [copy_same_type, hc]
    · simp only [Bool.not_eq_true] at hc
      simp [copy_same_type, hc]
  · rw [ensure_shape]
    rfl
  · rw [ensure_dim_types]
    rfl
  · rw [ensure_strides]
    rfl
  · apply ensure_buffer_ne_none
    have hnum : src.numel ≠ 0 := by
      unfold H2Tensor.is_empty at h
      simpa using h
    unfold H2Tensor.resize H2Tensor.numel at hnum ⊢
    simpa using hnum

/-- Witness for C7 at a concrete non-empty, non-contiguous source. -/
theorem c7_witness :
    (⟨0, [2, 2], [0, 0], [1, 4], .CPU, ⟨.CPU, 0⟩, some 3, false⟩ : H2Tensor).is_empty
        = false ∧
    ∃ d : H2Tensor,
      copy_same_type false false
          (⟨0, [3], [0], [1], .CPU, ⟨.CPU, 1⟩, some 9, false⟩ : H2Tensor)
          (⟨0, [2, 2], [0, 0], [1, 4], .CPU, ⟨.CPU, 0⟩, some 3, false⟩ : H2Tensor)
          = (copy_buffer false false d.buffer d.stream (some 3) ⟨.CPU, 0⟩
              (if (⟨0, [2, 2], [0, 0], [1, 4], .CPU, ⟨.CPU, 0⟩, some 3, false⟩ :
                  H2Tensor).is_contiguous
               then (⟨0, [2, 2], [0, 0], [1, 4], .CPU, ⟨.CPU, 0⟩, some 3, false⟩ :
                  H2Tensor).numel
               else get_extent_from_strides [2, 2] [1, 4])).map (fun a => (d, a)) ∧
      d.shape = [2, 2] ∧ d.dim_types = [0, 0] ∧ d.strides = [1, 4] ∧
      d.buffer ≠ none :=
  ⟨by decide,
    c7_copy_resize_ensure_then_transfer false false
      (⟨0, [3], [0], [1], .CPU, ⟨.CPU, 1⟩, some 9, false⟩ : H2Tensor)
      (⟨0, [2, 2], [0, 0], [1, 4], .CPU, ⟨.CPU, 0⟩, some 3, false⟩ : H2Tensor)
      (by decide)⟩

/-- Claim C8: for every tensor `t` and device `d` with `t.device == d`,
`make_accessible_on_device(t, d, stream?)` returns a non-owning view of `t`
sharing `t`'s underlying buffer; the view keeps `t`'s execution stream unless
an explicit stream argument was supplied, in which case the view is
re-pointed to that stream; no copy is issued and `t` itself is unchanged
(`set_stream` is applied only to the returned view). -/
theorem c8_make_accessible_same_device (debug has_gpu integrated : Bool)
    (src : H2Tensor) (dev : Device) (stream : Option ComputeStream)
    (h : src.device = dev) :
    make_accessible_on_device debug has_gpu integrated src dev stream
        = .ok ({ src with is_view := true, stream := stream.getD src.stream }, none) ∧
    ({ src with is_view := true, stream := stream.getD src.stream } : H2Tensor).buffer
        = src.buffer := by
  refine ⟨?_, rfl⟩
  cases stream with
  | none => simp [make_accessible_on_device, h, H2Tensor.view]
  | some s => simp [make_accessible_on_device, h, H2Tensor.view, H2Tensor.set_stream]

/-- Witness for C8: same device, with and without an explicit stream. -/
theorem c8_witness :
    make_accessible_on_device false false false
        (⟨0, [2], [0], [1], .CPU, ⟨.CPU, 0⟩, some 3, false⟩ : H2Tensor) .CPU
        (some ⟨.CPU, 7⟩)
      = .ok (⟨0, [2], [0], [1], .CPU, ⟨.CPU, 7⟩, some 3, true⟩, none) :=
  (c8_make_accessible_same_device false false false
    (⟨0, [2], [0], [1], .CPU, ⟨.CPU, 0⟩, some 3, false⟩ : H2Tensor) .CPU
    (some ⟨.CPU, 7⟩) rfl).1

/-- Claim C9: for `copy_buffer`: a zero-count copy is permitted even when both
buffer pointers are null (no error, and the recorded transfer moves 0
elements); a non-zero count with a null source or destination violates the
precondition, which is checked only when debug checking is enabled (with
debug on the call fails with the "Null buffers" assertion; with debug off it
never produces that assertion error); and when both streams are CPU the copy
is the synchronous bulk `std::memcpy` of exactly `count` elements. -/
theorem c9_copy_buffer_null_and_cpu (has_gpu : Bool) (dst src : Option Nat)
    (ds ss : ComputeStream) (count : Nat) :
    (∀ debug : Bool, (ds.device = Device.CPU ∧ ss.device = Device.CPU) ∨ has_gpu = true →
      ∃ a : CopyAct, copy_buffer debug has_gpu none ds none ss 0 = .ok a ∧
        a.count = 0) ∧
    (count ≠ 0 → (dst = none ∨ src = none) →
      copy_buffer true has_gpu dst ds src ss count = .error (.fatal "Null buffers") ∧
      copy_buffer false has_gpu dst ds src ss count
        ≠ .error (.fatal "Null buffers")) ∧
    (ss.device = Device.CPU → ds.device = Device.CPU →
      (count = 0 ∨ (dst ≠ none ∧ src ≠ none)) → ∀ debug : Bool,
      copy_buffer debug has_gpu dst ds src ss count = .ok (.memcpy dst src count)) := by
  refine ⟨?_, ?_, ?_⟩
  · intro debug hvalid
    cases hss : ss.device <;> cases hds : ds.device
    · exact ⟨.memcpy none none 0, by simp [copy_buffer, hss, hds], rfl⟩
    · rcases hvalid with ⟨hd, _⟩ | hg
      · rw [hds] at hd
        cases hd
      · subst hg
        exact ⟨.gpu_copy ds none none 0, by simp [copy_buffer, hss, hds, create_multi_sync], rfl⟩
    · rcases hvalid with ⟨_, hs⟩ | hg
      · rw [hss] at hs
        cases hs
      · subst hg
        exact ⟨.gpu_copy ss none none 0, by simp [copy_buffer, hss, hds], rfl⟩
    · rcases hvalid with ⟨hd, _⟩ | hg
      · rw [hds] at hd
        cases hd
      · subst hg
        exact ⟨.gpu_copy ds none none 0, by simp [copy_buffer, hss, hds, create_multi_sync], rfl⟩
  · intro hc hnull
    constructor
    · rcases hnull with hn | hn <;> simp [copy_buffer, hc, hn]
    · cases hss : ss.device <;> cases hds : ds.device <;> cases has_gpu <;>
        simp [copy_buffer, hss, hds]
  · intro hs hd hpre debug
    rcases hpre with hp | hpre2
    · simp [copy_buffer, hs, hd, hp]
    · obtain ⟨ha, hb⟩ := hpre2
      simp [copy_buffer, hs, hd, ha, hb]

/-- Witness for C9: a CPU-to-CPU copy of 3 elements between non-null buffers. -/
theorem c9_witness :
    copy_buffer true true (some 1) ⟨.CPU, 0⟩ (some 2) ⟨.CPU, 4⟩ 3
      = .ok (.memcpy (some 1) (some 2) 3) :=
  (c9_copy_buffer_null_and_cpu true (some 1) (some 2) ⟨.CPU, 0⟩ ⟨.CPU, 4⟩ 3).2.2
    rfl rfl (Or.inr ⟨by decide, by decide⟩) true

theorem getLastD_of_ne_nil : ∀ {l : List Nat}, l ≠ [] → ∀ a d : Nat,
    l.getLastD a = l.getLastD d
  | [], h, _, _ => absurd rfl h
  | [_], _, _, _ => rfl
  | x :: y :: l, _, a, d => by
    rw [List.getLastD_cons a x (y :: l), List.getLastD_cons d x (y :: l)]

theorem getLastD_cons_of_ne_nil {l : List Nat} (h : l ≠ []) (a d : Nat) :
    (a :: l).getLastD d = l.getLastD d := by
  rw [List.getLastD_cons]
  exact getLastD_of_ne_nil h a d

theorem index_lt_shape_tail_ne_nil {j : Nat} {rest srest : List Nat}
    (h : index_lt_shape (j :: rest) srest = true) : srest ≠ [] := by
  cases srest
  · simp [index_lt_shape] at h
  · simp

theorem carry_of_lt : ∀ (idx shape : List Nat), index_lt_shape idx shape = true →
    next_scalar_index_carry idx shape = idx
  | [], shape, _ => by cases shape <;> rfl
  | [_], shape, _ => by cases shape <;> rfl
  | _ :: _ :: _, [], h => by simp [index_lt_shape] at h
  | i :: j :: rest, s :: srest, h => by
    unfold index_lt_shape at h
    rw [Bool.and_eq_true, decide_eq_true_eq] at h
    obtain ⟨h1, h2⟩ := h
    unfold next_scalar_index_carry
    rw [if_neg (by omega)]
    rw [carry_of_lt (j :: rest) srest h2]

theorem carry_inc : ∀ (i : Nat) (rest shape : List Nat),
    index_lt_shape (i :: rest) shape = true →
    next_scalar_index_carry ((i + 1) :: rest) shape = colex_succ (i :: rest) shape
  | _, [], [], h => by simp [index_lt_shape] at h
  | _, [], [_], _ => rfl
  | _, [], _ :: _ :: _, h => by simp [index_lt_shape] at h
  | _, _ :: _, [], h => by simp [index_lt_shape] at h
  | i, j :: rest, s :: srest, h => by
    unfold index_lt_shape at h
    rw [Bool.and_eq_true, decide_eq_true_eq] at h
    obtain ⟨h1, h2⟩ := h
    unfold next_scalar_index_carry colex_succ
    by_cases hc : i + 1 = s
    · rw [if_pos hc, if_pos hc]
      rw [carry_inc j rest srest h2]
    · rw [if_neg hc, if_neg hc]
      rw [carry_of_lt (j :: rest) srest h2]

theorem colex_succ_ne_nil : ∀ (i : Nat) (rest shape : List Nat),
    colex_succ (i :: rest) shape ≠ []
  | _, [], _ => by simp [colex_succ]
  | _, _ :: _, [] => by simp [colex_succ]
  | i, j :: rest, s :: srest => by
    unfold colex_succ
    by_cases hc : i + 1 = s
    · rw [if_pos hc]
      simp
    · rw [if_neg hc]
      simp

theorem is_last_index_tail_ne_nil {j : Nat} {rest srest : List Nat}
    (h : is_last_index (j :: rest) srest = true) : srest ≠ [] := by
  cases srest
  · simp [is_last_index] at h
  · simp

theorem colex_succ_getLastD_of_last : ∀ (idx shape : List Nat),
    is_last_index idx shape = true → idx ≠ [] →
    (colex_succ idx shape).getLastD 0 = shape.getLastD 0
  | [], _, _, hne => absurd rfl hne
  | [i], [s], h, _ => by
    unfold is_last_index at h
    rw [Bool.and_eq_true, decide_eq_true_eq] at h
    show ([i + 1]).getLastD 0 = ([s]).getLastD 0
    rw [h.1]
  | [_], [], h, _ => by simp [is_last_index] at h
  | [_], _ :: _ :: _, h, _ => by simp [is_last_index] at h
  | _ :: _ :: _, [], h, _ => by simp [is_last_index] at h
  | i :: j :: rest, s :: srest, h, _ => by
    unfold is_last_index at h
    rw [Bool.and_eq_true, decide_eq_true_eq] at h
    obtain ⟨h1, h2⟩ := h
    unfold colex_succ
    rw [if_pos h1]
    rw [getLastD_cons_of_ne_nil (colex_succ_ne_nil j rest srest) 0 0,
      getLastD_cons_of_ne_nil (is_last_index_tail_ne_nil h2) s 0]
    exact colex_succ_getLastD_of_last (j :: rest) srest h2 (by simp)

theorem colex_succ_valid_lin : ∀ (idx shape : List Nat),
    index_lt_shape idx shape = true → is_last_index idx shape = false → idx ≠ [] →
    index_lt_shape (colex_succ idx shape) shape = true ∧
    colex_linear_index (colex_succ idx shape) shape
      = colex_linear_index idx shape + 1
  | [], _, _, _, hne => absurd rfl hne
  | [i], [s], hv, hl, _ => by
    unfold index_lt_shape at hv
    rw [Bool.and_eq_true, decide_eq_true_eq] at hv
    unfold is_last_index at hl
    rw [Bool.and_eq_false_iff] at hl
    have hne : ¬(i + 1 = s) := by
      rcases hl with hl | hl
      · simpa using hl
      · simp [is_last_index] at hl
    constructor
    · show (decide (i + 1 < s) && index_lt_shape [] []) = true
      have : i + 1 < s := by omega
      simp [index_lt_shape, this]
    · show (i + 1) + s * colex_linear_index [] [] = (i + s * colex_linear_index [] []) + 1
      simp [colex_linear_index]
  | [_], [], hv, _, _ => by simp [index_lt_shape] at hv
  | [_], _ :: _ :: _, hv, _, _ => by simp [index_lt_shape] at hv
  | _ :: _ :: _, [], hv, _, _ => by simp [index_lt_shape] at hv
  | i :: j :: rest, s :: srest, hv, hl, _ => by
    unfold index_lt_shape at hv
    rw [Bool.and_eq_true, decide_eq_true_eq] at hv
    obtain ⟨hv1, hv2⟩ := hv
    unfold colex_succ
    by_cases hc : i + 1 = s
    · rw [if_pos hc]
      unfold is_last_index at hl
      rw [Bool.and_eq_false_iff] at hl
      have hl2 : is_last_index (j :: rest) srest = false := by
        rcases hl with hl | hl
        · exfalso
          rw [decide_eq_false_iff_not] at hl
          exact hl hc
        · exact hl
      obtain ⟨ihv, ihl⟩ := colex_succ_valid_lin (j :: rest) srest hv2 hl2 (by simp)
      constructor
      · show (decide (0 < s) && index_lt_shape (colex_succ (j :: rest) srest) srest) = true
        have h0s : 0 < s := by omega
        simp [h0s, ihv]
      · show 0 + s * colex_linear_index (colex_succ (j :: rest) srest) srest
            = (i + s * colex_linear_index (j :: rest) srest) + 1
        rw [ihl, Nat.mul_add, Nat.mul_one]
        omega
    · rw [if_neg hc]
      constructor
      · show (decide (i + 1 < s) && index_lt_shape (j :: rest) srest) = true
        have : i + 1 < s := by omega
        simp [this, hv2]
      · show (i + 1) + s * colex_linear_index (j :: rest) srest
            = (i + s * colex_linear_index (j :: rest) srest) + 1
        omega

theorem index_lt_shape_getLastD : ∀ (idx shape : List Nat),
    index_lt_shape idx shape = true → idx ≠ [] →
    idx.getLastD 0 < shape.getLastD 0
  | [], _, _, hne => absurd rfl hne
  | [i], [s], h, _ => by
    unfold index_lt_shape at h
    rw [Bool.and_eq_true, decide_eq_true_eq] at h
    show ([i]).getLastD 0 < ([s]).getLastD 0
    simpa using h.1
  | [_], [], h, _ => by simp [index_lt_shape] at h
  | [_], _ :: _ :: _, h, _ => by simp [index_lt_shape] at h
  | _ :: _ :: _, [], h, _ => by simp [index_lt_shape] at h
  | i :: j :: rest, s :: srest, h, _ => by
    unfold index_lt_shape at h
    rw [Bool.and_eq_true, decide_eq_true_eq] at h
    obtain ⟨h1, h2⟩ := h
    rw [getLastD_cons_of_ne_nil (by simp : (j :: rest) ≠ ([] : List Nat)) i 0,
      getLastD_cons_of_ne_nil (index_lt_shape_tail_ne_nil h2) s 0]
    exact index_lt_shape_getLastD (j :: rest) srest h2 (by simp)

/-- Claim C10: for every shape with positive extents and every scalar index
valid in it (same rank, each coordinate strictly below its extent —
`index_lt_shape`, which also forces the extents positive),
`next_scalar_index(idx, shape)` is the immediate successor of `idx` in the
generalized column-major order (dimension 0 varies fastest): when `idx` is
the last index of the shape the result is the shape tuple itself (one past
the end); otherwise the result is again a valid index in the shape and its
column-major linear position (`colex_linear_index`) is exactly one more than
`idx`'s. -/
theorem c10_next_scalar_index (idx shape : List Nat) (hne : idx ≠ [])
    (hvalid : index_lt_shape idx shape = true) :
    (is_last_index idx shape = true → next_scalar_index idx shape = shape) ∧
    (is_last_index idx shape = false →
      index_lt_shape (next_scalar_index idx shape) shape = true ∧
      colex_linear_index (next_scalar_index idx shape) shape
        = colex_linear_index idx shape + 1) := by
  obtain ⟨i, rest, rfl⟩ : ∃ i rest, idx = i :: rest := by
    cases idx
    · exact absurd rfl hne
    · exact ⟨_, _, rfl⟩
  have hstart : next_scalar_index (i :: rest) shape
      = (if (next_scalar_index_carry ((i + 1) :: rest) shape).getLastD 0
            = shape.getLastD 0
         then shape else next_scalar_index_carry ((i + 1) :: rest) shape) := rfl
  rw [carry_inc i rest shape hvalid] at hstart
  constructor
  · intro hlast
    rw [hstart, if_pos (colex_succ_getLastD_of_last (i :: rest) shape hlast (by simp))]
  · intro hnl
    obtain ⟨hv2, hl2⟩ := colex_succ_valid_lin (i :: rest) shape hvalid hnl (by simp)
    have hneq : (colex_succ (i :: rest) shape).getLastD 0 ≠ shape.getLastD 0 :=
      Nat.ne_of_lt (index_lt_shape_getLastD (colex_succ (i :: rest) shape) shape hv2
        (colex_succ_ne_nil i rest shape))
    rw [hstart, if_neg hneq]
    exact ⟨hv2, hl2⟩

/-- Witness for C10 at `idx = [1, 2]`, `shape = [3, 3]` (not the last index). -/
theorem c10_witness :
    index_lt_shape (next_scalar_index [1, 2] [3, 3]) [3, 3] = true ∧
    colex_linear_index (next_scalar_index [1, 2] [3, 3]) [3, 3]
      = colex_linear_index [1, 2] [3, 3] + 1 :=
  (c10_next_scalar_index [1, 2] [3, 3] (by decide) (by decide)).2 (by decide)

end h2
